import Mathlib

/-!
Shallow embedding of the serial-to-mqtt repository (Python) in Lean 4.

Each definition is translated from one source location, cited in its doc
comment.  Python byte values are embedded as `Nat`, Python strings used as
byte buffers as `List Char`, Python floats produced by `float(raw)/10.0`
as exact rationals (no claim depends on float rounding), and the Either
monad of src/serial_to_mqtt/result/either.py as a two-constructor
inductive.
-/

set_option maxRecDepth 16384

/-- Either monad, from src/serial_to_mqtt/result/either.py: `Right` wraps a
successful value, `Left` wraps an error. -/
inductive PyEither (ε α : Type) where
  | left (e : ε)
  | right (v : α)
deriving DecidableEq

/-- PyEither.successful, from either.py lines 85-92 and 135-142: True for
Right, False for Left. -/
def PyEither.successful : PyEither ε α → Bool
  | .left _ => false
  | .right _ => true

/-- ModbusCrc16Calculator single bit step, from
src/serial_to_mqtt/protocols/modbus_rtu.py lines 191-194: if the LSB of the
crc is 1, shift right and XOR with 0xA001, else just shift right. -/
def crcBit (crc : Nat) : Nat :=
  if crc &&& 0x0001 == 1 then (crc >>> 1) ^^^ 0xA001 else crc >>> 1

/-- ModbusCrc16Calculator per-byte step, from modbus_rtu.py lines 187-194:
XOR the byte into the crc, then run 8 bit steps. -/
def crcByte (crc b : Nat) : Nat :=
  crcBit^[8] (crc ^^^ b)

namespace ModbusCrc16Calculator

/-- ModbusCrc16Calculator.calculate, from modbus_rtu.py lines 176-195:
start from 0xFFFF and fold every data byte through the per-byte step. -/
def calculate (data : List Nat) : Nat :=
  data.foldl crcByte 0xFFFF

end ModbusCrc16Calculator

/-- Spec-worded single bit step of the CRC (spec.md section 4.3): shift
right one bit and XOR with 0xA001 exactly when the shifted-out
least-significant bit is 1.  Written with `% 2` and `/ 2` independently of
the source translation `crcBit`; the refinement theorem for C2 proves both
agree. -/
def crcSpecBit (crc : Nat) : Nat :=
  if crc % 2 = 1 then (crc / 2) ^^^ 0xA001 else crc / 2

/-- Spec-worded CRC-16 (spec.md section 4.3): init 0xFFFF, one byte at a
time XOR-ed into the crc, then 8 LSB-first bit steps. -/
def calculateSpec (data : List Nat) : Nat :=
  data.foldl (fun crc b => crcSpecBit^[8] (crc ^^^ b)) 0xFFFF

namespace ModbusCrc16

/-- ModbusCrc16.valid, from modbus_rtu.py lines 130-147: messages shorter
than 3 bytes are rejected; otherwise the CRC of all bytes but the last two
must equal the little-endian 16-bit value of the trailing two bytes. -/
def valid (bs : List Nat) : Bool :=
  if bs.length < 3 then false
  else
    ModbusCrc16Calculator.calculate (bs.take (bs.length - 2)) ==
      ((bs.getD (bs.length - 1) 0) <<< 8) ||| bs.getD (bs.length - 2) 0

end ModbusCrc16

/-- Measurement unit value object, from src/serial_to_mqtt/domain/unit.py
(named `Unit` in the source; renamed to avoid the Lean core name). -/
structure MeasureUnit where
  name : String
  symbol : String
deriving DecidableEq

/-- Measurement, from src/serial_to_mqtt/domain/measurement.py lines 14-59:
a unit together with a numeric value.  The Python float is embedded as an
exact rational. -/
structure Measurement where
  unit : MeasureUnit
  numeric : ℚ
deriving DecidableEq

/-- Generic Reading, from src/serial_to_mqtt/domain/reading.py lines 21-72:
an epoch timestamp in milliseconds and a measurement.  The class body
defines only `__init__`, `json` and `measurement`. -/
structure Reading where
  epoch : Nat
  measurement : Measurement
deriving DecidableEq

/-- Attribute lookup for `publishable` on the generic Reading class:
reading.py lines 21-72 define no method named `publishable`, so the lookup
fails (`none`); calling it on a generic Reading raises AttributeError. -/
def Reading.publishableLookup : Option (Reading → Bool) := none

/-- Input fed to ModbusRtuProtocol.parse.  `seq` is a genuine byte
sequence; `nonseq` stands for any Python object without `__len__`, on
which the `len(bytes)` call of modbus_rtu.py line 85 raises TypeError. -/
inductive ParseInput where
  | seq (data : List Nat)
  | nonseq
deriving DecidableEq

/-- Outcome of calling a Python method: either it returns a value or an
exception escapes it. -/
inductive PyOutcome (α : Type) where
  | returns (r : α)
  | raises (msg : String)
deriving DecidableEq

namespace ModbusRtuProtocol

/-- Body of the `try` block of ModbusRtuProtocol.parse, modbus_rtu.py lines
89-105.  Every exception raised inside the block is caught by the bare
`except Exception` and wrapped into a Left, so the block as a whole is a
total function into PyEither; indices 1-4 are guarded by the length check
done before the block.  `epochNow` embeds the injected clock (reading.py
Clock), `u` the unit held by the injected MeasurementFactory
(factory.py lines 26-62), and ReadingFactory.create (factory.py lines
88-99) builds a generic Reading. -/
def tryBody (epochNow : Nat) (u : MeasureUnit) (data : List Nat) :
    PyEither String Reading :=
  let functionCode := data.getD 1 0
  if functionCode ≠ 3 then
    .left ("Unsupported Modbus function code: " ++ toString functionCode)
  else
    let byteCount := data.getD 2 0
    if data.length < 3 + byteCount + 2 then
      .left "Modbus RTU message length mismatch"
    else
      let highByte := data.getD 3 0
      let lowByte := data.getD 4 0
      let rawValue := (highByte <<< 8) ||| lowByte
      let numeric : ℚ := (rawValue : ℚ) / 10
      .right ⟨epochNow, ⟨u, numeric⟩⟩

/-- ModbusRtuProtocol.parse, modbus_rtu.py lines 68-105: the minimum-length
check (line 85) and the CRC check (line 87) run before the try block, so
their Lefts are returned directly; the `len` call on a non-sequence input
raises TypeError outside any try and escapes parse. -/
def parse (epochNow : Nat) (u : MeasureUnit) :
    ParseInput → PyOutcome (PyEither String Reading)
  | .nonseq => .raises "TypeError: object of this type has no len()"
  | .seq data =>
    if data.length < 5 then
      .returns (.left "Modbus RTU message too short")
    else if ¬ ModbusCrc16.valid data then
      .returns (.left "Invalid Modbus RTU CRC-16")
    else
      .returns (tryBody epochNow u data)

end ModbusRtuProtocol

namespace Sensor

/-- Sensor.read, from src/serial_to_mqtt/domain/sensor.py lines 59-76,
instrumented with the number of decoder invocations.  `recv` is the result
of `self._connection.receive()`; the `self._delay.wait()` call between the
receive and the check only sleeps and does not touch the result.  On
receive failure a Left carrying the same error is returned and the decoder
is never called (0 invocations); on success the decoder result is returned
unchanged (1 invocation). -/
def read (recv : PyEither String β) (decode : β → PyEither String γ) :
    PyEither String γ × Nat :=
  match recv with
  | .left e => (.left e, 0)
  | .right v => (decode v, 1)

end Sensor

/-- ReceivedBytes, from src/serial_to_mqtt/serial/port.py lines 51-78: a
value object wrapping data read from the port (a Python str, embedded as
List Char). -/
structure ReceivedBytes where
  content : List Char
deriving DecidableEq

/-- AccumulatedBytes, from port.py lines 109-164: immutable buffer of
accumulated bytes. -/
structure AccumulatedBytes where
  content : List Char
deriving DecidableEq

namespace AccumulatedBytes

/-- AccumulatedBytes.append, port.py lines 133-143: build a new buffer with
the received content concatenated; the receiver is not modified. -/
def append (a : AccumulatedBytes) (received : ReceivedBytes) :
    AccumulatedBytes :=
  ⟨a.content ++ received.content⟩

/-- AccumulatedBytes.trim, port.py lines 154-164: build a new buffer
holding only the remainder; the receiver is not modified. -/
def trim (_ : AccumulatedBytes) (remainder : List Char) :
    AccumulatedBytes :=
  ⟨remainder⟩

end AccumulatedBytes

/-- Outcome of one SensorPipeline.start call, from
src/serial_to_mqtt/domain/pipeline.py lines 86-100: either the reading was
published, or it was silently dropped, or the read error was logged to the
console, or an exception escaped the call. -/
inductive StartOutcome where
  | published (r : Reading)
  | dropped
  | logged (message : String)
  | raised (msg : String)
deriving DecidableEq

namespace SensorPipeline

/-- SensorPipeline.start, pipeline.py lines 86-100, applied to the result
of `self._sensor.read()` and the configured port number.  On failure the
error is formatted to the console; on success the pipeline calls
`reading.publishable()`, which on a generic Reading is resolved through
`Reading.publishableLookup` and raises AttributeError when the class
defines no such method. -/
def start (result : PyEither String Reading) (port : Nat) : StartOutcome :=
  match result with
  | .left e => .logged ("COM" ++ toString port ++ ": " ++ e)
  | .right reading =>
    match Reading.publishableLookup with
    | none => .raised "AttributeError: Reading has no attribute publishable"
    | some publishable =>
      if publishable reading then .published reading else .dropped

end SensorPipeline

/-- Splits a character list on semicolons; helper for the structural
validity rule of the text-protocol framer. -/
def splitSemi : List Char → List (List Char)
  | [] => [[]]
  | c :: rest =>
    let r := splitSemi rest
    if c = ';' then [] :: r
    else
      match r with
      | [] => [[c]]
      | f :: others => (c :: f) :: others

/-- Modelled from the spec: structural validity of a text-protocol message
candidate (spec.md section 4.2 rule 3); the body after the start marker
must split into exactly three semicolon-separated fields and the checksum
field must be all-digit.  The implementation (KsumDelimiter in
sokol_sensors.protocols.ksum, imported by src/tests/test_framing.py) is
not under src/. -/
def structurallyValid (body : List Char) : Bool :=
  match splitSemi body with
  | [_, _, checksumField] => checksumField.all Char.isDigit
  | _ => false

namespace KsumDelimiter

/-- Modelled from the spec: one left-to-right scan of the text-protocol
framer (spec.md section 4.2, rules 1-5), fuelled for termination.  Bytes
before a start marker are dropped; a candidate runs from a start marker to
the next carriage return, or to end-of-buffer, in which case it stays in
the remainder; terminated candidates are emitted only when structurally
valid, invalid ones are skipped silently; the scan repeats on the rest.
The implementation (KsumDelimiter.extract in sokol_sensors.protocols.ksum)
is not under src/. -/
def extractFuel : Nat → List Char → List (List Char) × List Char
  | 0, cs => ([], cs)
  | _ + 1, [] => ([], [])
  | fuel + 1, cs =>
    match cs.dropWhile (fun c => c ≠ '!') with
    | [] => ([], [])
    | _ :: rest =>
      let body := rest.takeWhile (fun c => c ≠ '\x0d')
      match rest.dropWhile (fun c => c ≠ '\x0d') with
      | [] => ([], '!' :: body)
      | _ :: tail =>
        let (msgs, rem) := extractFuel fuel tail
        if structurallyValid body then (('!' :: body) :: msgs, rem)
        else (msgs, rem)

/-- Modelled from the spec: KsumDelimiter.extract (spec.md section 4.2),
returning the list of complete structurally valid messages and the
remainder.  The fuel `cs.length + 1` dominates the number of scans, each
of which consumes at least one character. -/
def extract (cs : List Char) : List (List Char) × List Char :=
  extractFuel (cs.length + 1) cs

end KsumDelimiter

/-- Python str.find, used by FramedConnection.receive (connection.py line
294): first index at which the pattern occurs in the haystack, or -1 when
it does not occur. -/
def pyFind (hay pat : List Char) : Int :=
  match hay with
  | [] => if pat = [] then 0 else -1
  | _ :: rest =>
    if pat.isPrefixOf hay then 0
    else
      match pyFind rest pat with
      | -1 => -1
      | i => i + 1

/-- Python slice s[p:] with an Int position, used by connection.py line
295: a negative position counts from the end of the string, clamped at
0. -/
def pySliceFrom (s : List Char) (p : Int) : List Char :=
  if 0 ≤ p then s.drop p.toNat
  else s.drop ((s.length : Int) + p).toNat

namespace FramedConnection

/-- FramedConnection.receive, from src/serial_to_mqtt/serial/connection.py
lines 276-296, as a function of the stream of inner receive results (one
list entry per iteration of the `while True` loop) and the current
accumulated buffer.  Each loop iteration: an inner failure is returned
immediately with the buffer as accumulated so far; an inner success is
appended to the buffer, the delimiter is run on the whole buffer, and on a
non-empty extraction the first message is returned and the buffer trimmed
past its first occurrence.  `none` models the case where the finite stream
is exhausted with the loop still running.  `ext` is the injected
delimiter's extract method. -/
def receive (ext : List Char → List (List Char) × List Char) :
    List (PyEither String ReceivedBytes) → AccumulatedBytes →
    Option (PyEither String ReceivedBytes × AccumulatedBytes)
  | [], _ => none
  | .left e :: _, acc => some (.left e, acc)
  | .right chunk :: rest, acc =>
    let acc1 := acc.append chunk
    match (ext acc1.content).1 with
    | [] => receive ext rest acc1
    | first :: _ =>
      let position := pyFind acc1.content first + first.length
      some (.right ⟨first⟩, acc1.trim (pySliceFrom acc1.content position))

end FramedConnection

/-- Phase of the LoopedPipeline interpreter: between iterations about to
test the while condition, inside an inner start() call, or exited. -/
inductive LoopPhase where
  | checking
  | inIteration
  | done
deriving DecidableEq

/-- State of a running LoopedPipeline.start call, from
src/serial_to_mqtt/domain/loop.py lines 48-66: the `_running` flag,
the control phase of the loop, and counters of inner iterations begun and
completed. -/
structure LoopState where
  running : Bool
  phase : LoopPhase
  started : Nat
  finished : Nat
deriving DecidableEq

/-- Events interleaved during LoopedPipeline.start: `stop` is
LoopedPipeline.stop (loop.py lines 59-66) called from another thread;
`check` is the `while self._running` test (line 56) together with entering
the inner start() when it holds and exiting the loop when it does not;
`finish` is the completion of an in-flight inner start() call (line 57).
A `check` or `finish` event arriving in a phase where the loop is not at
that control point changes nothing. -/
inductive LoopEvent where
  | stop
  | check
  | finish
deriving DecidableEq

/-- One interleaving step of LoopedPipeline.  `stop` only sets the running
flag to false (loop.py line 66) and touches nothing else; no event ever
sets the flag back to true. -/
def loopStep (s : LoopState) : LoopEvent → LoopState
  | .stop => { s with running := false }
  | .check =>
    if s.phase = .checking then
      if s.running then
        { s with phase := .inIteration, started := s.started + 1 }
      else { s with phase := .done }
    else s
  | .finish =>
    if s.phase = .inIteration then
      { s with phase := .checking, finished := s.finished + 1 }
    else s

/-- State right after LoopedPipeline.start sets `self._running = True`
(loop.py line 55), with no iteration begun yet. -/
def loopInit : LoopState :=
  ⟨true, .checking, 0, 0⟩

/-- Runs a sequence of interleaved events from a loop state. -/
def runTrace (s : LoopState) (events : List LoopEvent) : LoopState :=
  events.foldl loopStep s

/-- Concrete unit fixture matching the MeasurementFactory example of
modbus_rtu.py lines 15 and 45. -/
def defaultUnit : MeasureUnit :=
  ⟨"celsius", "C"⟩

/-- The captured frame of the modbus_rtu.py module docstring, line 19:
`b"\x01\x03\x04\x00\x0a\x00\x01\xdd\xf4"`. -/
def modbusDocFrame : List Nat :=
  [0x01, 0x03, 0x04, 0x00, 0x0A, 0x00, 0x01, 0xDD, 0xF4]

/-- The same 7-byte payload as the docstring frame with its actual CRC-16
(0xF11B) appended little-endian, producing a frame that
ModbusCrc16.valid accepts. -/
def modbusGoodFrame : List Nat :=
  [0x01, 0x03, 0x04, 0x00, 0x0A, 0x00, 0x01, 0x1B, 0xF1]

/-- A CRC-valid function-code-3 frame of total length 8 whose byte-count
field is 1, so that 3 + byte_count + 2 = 6 differs from the frame length;
the trailing bytes are the little-endian CRC-16 (0x9642) of the first six
bytes. -/
def modbusLongFrame : List Nat :=
  [0x01, 0x03, 0x01, 0x00, 0x0A, 0x00, 0x42, 0x96]

/-- A delimiter whose extract finds no complete message in any buffer
(everything stays in the remainder), standing for an inner stream whose
chunks never complete a message. -/
def noMessageExt : List Char → List (List Char) × List Char :=
  fun cs => ([], cs)

/-!  Theorems.  -/

/-- C7: for every accumulator and chunk, append then content equals the
prior content concatenated with the chunk's content, and trim then
content equals the remainder; both operations build new values and, the
embedding being purely functional like the source contract demands, leave
the receiver untouched. -/
theorem accumulatedBytes_append_trim_content :
    (∀ (a : AccumulatedBytes) (c : ReceivedBytes),
      (a.append c).content = a.content ++ c.content) ∧
    (∀ (a : AccumulatedBytes) (r : List Char), (a.trim r).content = r) :=
  ⟨fun _ _ => rfl, fun _ _ => rfl⟩

/-- C6: when the connection's receive fails, Sensor.read returns a Failure
carrying that error and performs zero decoder invocations; when it
succeeds, read returns exactly the decoder's Result on the received value,
with one decoder invocation. -/
theorem sensor_read_failure_propagation {β γ : Type} :
    (∀ (e : String) (decode : β → PyEither String γ),
      Sensor.read (.left e) decode = (.left e, 0)) ∧
    (∀ (v : β) (decode : β → PyEither String γ),
      Sensor.read (.right v) decode = (decode v, 1)) :=
  ⟨fun _ _ => rfl, fun _ _ => rfl⟩

/-- C1 (code evaluated at the failing input): the generic Reading class
defines no publishable method, so the single-shot pipeline's
`reading.publishable()` call on a successfully read generic Reading raises
AttributeError instead of returning true and publishing. -/
theorem sensorPipeline_generic_reading_raises
    (epoch : Nat) (m : Measurement) (port : Nat) :
    Reading.publishableLookup = none ∧
    SensorPipeline.start (.right ⟨epoch, m⟩) port =
      .raised "AttributeError: Reading has no attribute publishable" :=
  ⟨rfl, rfl⟩

/-- C8: on the buffer "!1;25.5;38444\r!2;30" the text-protocol delimiter
extracts exactly the message "!1;25.5;38444", and the trailing candidate
"!2;30", which has no end-of-message marker, stays in the remainder. -/
theorem ksum_extract_example :
    KsumDelimiter.extract "!1;25.5;38444\r!2;30".toList =
      (["!1;25.5;38444".toList], "!2;30".toList) := by
  decide

/-- C10 (amended): whenever the inner connection's receive fails,
FramedConnection.receive returns that same Failure at once and the failing
iteration appends and trims nothing: the buffer at return is exactly the
buffer as accumulated before that iteration.  (The counterexample shows
the buffer can still differ from its value at the start of the call, by
the chunks appended in earlier successful iterations.) -/
theorem framedConnection_receive_failure
    (ext : List Char → List (List Char) × List Char) (e : String)
    (rest : List (PyEither String ReceivedBytes)) (acc : AccumulatedBytes) :
    FramedConnection.receive ext (.left e :: rest) acc = some (.left e, acc) :=
  rfl

/-- C10 (counterexample): an inner stream delivering a chunk that
completes no message and then failing makes FramedConnection.receive
return the failure with the accumulated buffer changed from its value at
the start of the call. -/
theorem framedConnection_receive_buffer_changed :
    FramedConnection.receive noMessageExt
        [.right ⟨['x']⟩, .left "boom"] ⟨[]⟩ =
      some (.left "boom", ⟨['x']⟩) ∧
    (⟨['x']⟩ : AccumulatedBytes) ≠ ⟨[]⟩ := by
  constructor
  · rfl
  · decide

/-- C5 (amended): on every byte-sequence input, ModbusRtuProtocol.parse
returns a Result and lets no exception escape: the checks before the try
block return Lefts directly and the try block wraps everything it raises
into a Left. -/
theorem modbus_parse_total_on_sequences
    (epochNow : Nat) (u : MeasureUnit) (data : List Nat) :
    ∃ r, ModbusRtuProtocol.parse epochNow u (.seq data) = .returns r := by
  simp only [ModbusRtuProtocol.parse]
  split
  · exact ⟨_, rfl⟩
  · split
    · exact ⟨_, rfl⟩
    · exact ⟨_, rfl⟩

/-- C5 (counterexample): on a non-sequence input the `len(bytes)` call of
parse runs outside the try block and its TypeError escapes, so parse does
not return a Result there. -/
theorem modbus_parse_nonseq_raises :
    ModbusRtuProtocol.parse 0 defaultUnit .nonseq =
      .raises "TypeError: object of this type has no len()" :=
  rfl

/-- The source's bit step (bitwise operators) agrees with the spec-worded
bit step (parity and halving). -/
theorem crcBit_eq_crcSpecBit : crcBit = crcSpecBit := by
  funext n
  unfold crcBit crcSpecBit
  rcases Nat.mod_two_eq_zero_or_one n with h | h <;>
    simp [Nat.and_one_is_mod, Nat.shiftRight_one, h]

/-- C2 (amended): the source CRC equals the spec-described CRC on every
byte list, and for every frame of at least 3 bytes, ModbusCrc16.valid
accepts it exactly when the CRC over all bytes but the trailing two equals
the little-endian value of the trailing two; frames shorter than 3 bytes
are always rejected, even when that equation holds. -/
theorem modbusCrc16_valid_characterization :
    (∀ data : List Nat,
      ModbusCrc16Calculator.calculate data = calculateSpec data) ∧
    (∀ bs : List Nat, 3 ≤ bs.length →
      (ModbusCrc16.valid bs = true ↔
        ModbusCrc16Calculator.calculate (bs.take (bs.length - 2)) =
          ((bs.getD (bs.length - 1) 0) <<< 8) ||| bs.getD (bs.length - 2) 0)) := by
  constructor
  · intro data
    have h : crcByte = fun crc b => crcSpecBit^[8] (crc ^^^ b) := by
      funext crc b
      rw [crcByte, crcBit_eq_crcSpecBit]
    simp only [ModbusCrc16Calculator.calculate, calculateSpec, h]
  · intro bs h3
    unfold ModbusCrc16.valid
    rw [if_neg (by omega)]
    simp

/-- C2 (witness): the characterization applied to the CRC-valid captured
frame with its correct trailing CRC bytes. -/
theorem modbusCrc16_valid_characterization_witness :
    ModbusCrc16.valid modbusGoodFrame = true ↔
      ModbusCrc16Calculator.calculate
          (modbusGoodFrame.take (modbusGoodFrame.length - 2)) =
        ((modbusGoodFrame.getD (modbusGoodFrame.length - 1) 0) <<< 8) |||
          modbusGoodFrame.getD (modbusGoodFrame.length - 2) 0 :=
  modbusCrc16_valid_characterization.2 modbusGoodFrame (by decide)

/-- C2 (counterexample): the two-byte frame FF FF satisfies the claimed
acceptance condition - the CRC of its empty payload is the initial value
0xFFFF, which equals the little-endian trailing value - yet valid rejects
it, because every frame shorter than 3 bytes is rejected first. -/
theorem modbusCrc16_valid_short_frame :
    ModbusCrc16.valid [255, 255] = false ∧
    ModbusCrc16Calculator.calculate (([255, 255] : List Nat).take 0) =
      ((255 : Nat) <<< 8) ||| 255 := by
  decide

/-- C4 (amended): for a frame passing the minimum-length, CRC and
function-code checks, parse returns the length-mismatch Failure exactly
when the frame length is LESS THAN 3 + byte_count + 2; a frame longer
than its byte-count field declares is not rejected. -/
theorem modbus_parse_length_mismatch_iff
    (epochNow : Nat) (u : MeasureUnit) (data : List Nat)
    (h5 : 5 ≤ data.length) (hcrc : ModbusCrc16.valid data = true)
    (hfc : data.getD 1 0 = 3) :
    (ModbusRtuProtocol.parse epochNow u (.seq data) =
        .returns (.left "Modbus RTU message length mismatch") ↔
      data.length < 3 + data.getD 2 0 + 2) := by
  have hv : ¬ data.length < 5 := by omega
  rw [List.getD_eq_getElem?_getD] at hfc
  by_cases hlen : data.length < 3 + data.getD 2 0 + 2 <;>
    rw [List.getD_eq_getElem?_getD] at hlen <;>
    simp [ModbusRtuProtocol.parse, ModbusRtuProtocol.tryBody, hv, hcrc, hfc,
      hlen]

/-- C4 (witness): on the CRC-valid captured frame, whose byte-count field
4 matches the total length 9 = 3 + 4 + 2, parse does not report a length
mismatch. -/
theorem modbus_parse_length_mismatch_iff_witness :
    ModbusRtuProtocol.parse 0 defaultUnit (.seq modbusGoodFrame) =
        .returns (.left "Modbus RTU message length mismatch") ↔
      modbusGoodFrame.length < 3 + modbusGoodFrame.getD 2 0 + 2 :=
  modbus_parse_length_mismatch_iff 0 defaultUnit modbusGoodFrame
    (by decide) (by decide) (by decide)

/-- C4 (counterexample): a CRC-valid function-code-3 frame of length 8
whose byte-count field declares 3 + 1 + 2 = 6 bytes parses successfully
instead of failing with a length mismatch, so the claimed "if and only if
length differs" is false: the code only rejects frames that are too
short. -/
theorem modbus_parse_long_frame_accepted :
    modbusLongFrame.length ≠ 3 + modbusLongFrame.getD 2 0 + 2 ∧
    ∃ v, ModbusRtuProtocol.parse 0 defaultUnit (.seq modbusLongFrame) =
      .returns (.right v) := by
  constructor
  · decide
  · exact ⟨_, rfl⟩

/-- Parity of a XOR is the XOR of the parities. -/
theorem xorModTwo (s t : Nat) : (s ^^^ t) % 2 = (s % 2) ^^^ (t % 2) := by
  have h := Nat.and_one_is_mod (s ^^^ t)
  rw [Nat.and_xor_distrib_right, Nat.and_one_is_mod, Nat.and_one_is_mod] at h
  exact h.symm

/-- Right shift by one distributes over XOR. -/
theorem shiftRight_one_xor (a b : Nat) :
    (a ^^^ b) >>> 1 = (a >>> 1) ^^^ (b >>> 1) := by
  apply Nat.eq_of_testBit_eq
  intro i
  simp [Nat.testBit_shiftRight]

/-- Left commutativity of XOR on Nat. -/
theorem xorLeftComm (a b c : Nat) : a ^^^ (b ^^^ c) = b ^^^ (a ^^^ c) := by
  rw [← Nat.xor_assoc, Nat.xor_comm a b, Nat.xor_assoc]

/-- The CRC bit step is linear over XOR: the conditional XOR with 0xA001
fires exactly when the parity does, and parities of a XOR add up. -/
theorem crcBit_linear (s t : Nat) :
    crcBit (s ^^^ t) = crcBit s ^^^ crcBit t := by
  unfold crcBit
  have hx := xorModTwo s t
  rcases Nat.mod_two_eq_zero_or_one s with hs | hs <;>
    rcases Nat.mod_two_eq_zero_or_one t with ht | ht <;>
    rw [hs, ht] at hx <;>
    simp [Nat.and_one_is_mod, hs, ht, hx, shiftRight_one_xor] <;>
    simp [Nat.xor_assoc, Nat.xor_comm, xorLeftComm, Nat.xor_self,
      Nat.xor_zero]

/-- Iterates of the CRC bit step are linear over XOR. -/
theorem iterate_crcBit_linear (n s t : Nat) :
    crcBit^[n] (s ^^^ t) = crcBit^[n] s ^^^ crcBit^[n] t := by
  induction n generalizing s t with
  | zero => simp
  | succ n ih =>
    rw [Function.iterate_succ_apply, Function.iterate_succ_apply,
      Function.iterate_succ_apply, crcBit_linear, ih]

/-- XOR-ing a disturbance into the processed byte disturbs the state after
the byte step by the 8-fold bit step of the disturbance. -/
theorem crcByte_xor_byte (s b e : Nat) :
    crcByte s (b ^^^ e) = crcByte s b ^^^ crcBit^[8] e := by
  unfold crcByte
  rw [← Nat.xor_assoc, iterate_crcBit_linear]

/-- A disturbance of the CRC state propagates through the remaining bytes
as 8 bit steps per byte, independently of the data. -/
theorem foldl_crcByte_xor (data : List Nat) :
    ∀ s d : Nat, List.foldl crcByte (s ^^^ d) data =
      List.foldl crcByte s data ^^^ crcBit^[8 * data.length] d := by
  induction data with
  | nil => intro s d; simp
  | cons b rest ih =>
    intro s d
    rw [List.foldl_cons, List.foldl_cons]
    have hstep : crcByte (s ^^^ d) b = crcByte s b ^^^ crcBit^[8] d := by
      unfold crcByte
      rw [Nat.xor_comm s d, Nat.xor_assoc, Nat.xor_comm d,
        iterate_crcBit_linear]
    have hexp : 8 * rest.length + 8 = 8 * (b :: rest).length := by
      simp [List.length_cons]
      omega
    rw [hstep, ih, ← Function.iterate_add_apply, hexp]

/-- The CRC bit step never maps a nonzero 16-bit disturbance to zero: a
zero image with odd input would force the shifted input to be 0xA001,
which needs 17 bits. -/
theorem crcBit_nonzero (t : Nat) (h0 : t ≠ 0) (hb : t < 65536) :
    crcBit t ≠ 0 ∧ crcBit t < 65536 := by
  unfold crcBit
  rcases Nat.mod_two_eq_zero_or_one t with hp | hp <;>
    simp [Nat.and_one_is_mod, hp, Nat.shiftRight_one]
  · constructor
    · omega
    · omega
  · constructor
    · intro hc
      omega
    · have h1 : t / 2 < 2 ^ 16 := by omega
      have h2 : (40961 : Nat) < 2 ^ 16 := by norm_num
      have := Nat.xor_lt_two_pow h1 h2
      omega

/-- Iterated CRC bit steps keep a nonzero 16-bit disturbance nonzero. -/
theorem iterate_crcBit_nonzero (n : Nat) :
    ∀ t : Nat, t ≠ 0 → t < 65536 →
      crcBit^[n] t ≠ 0 ∧ crcBit^[n] t < 65536 := by
  induction n with
  | zero => intro t h0 hb; simpa using ⟨h0, hb⟩
  | succ n ih =>
    intro t h0 hb
    rw [Function.iterate_succ_apply]
    have := crcBit_nonzero t h0 hb
    exact ih (crcBit t) this.1 this.2

/-- Folding the CRC over a list with one byte XOR-disturbed equals the
undisturbed fold XOR the disturbance propagated over the remaining
bytes. -/
theorem foldl_crcByte_flip (data : List Nat) :
    ∀ (j : Nat) (e s : Nat), j < data.length →
      List.foldl crcByte s (data.set j (data.getD j 0 ^^^ e)) =
        List.foldl crcByte s data ^^^
          crcBit^[8 * (data.length - j)] e := by
  induction data with
  | nil => intro j e s h; simp at h
  | cons b rest ih =>
    intro j e s h
    cases j with
    | zero =>
      simp only [List.set, List.getD_cons_zero, List.foldl_cons]
      have hexp : 8 * rest.length + 8 = 8 * ((b :: rest).length - 0) := by
        simp [List.length_cons]
        omega
      rw [crcByte_xor_byte, foldl_crcByte_xor, ← Function.iterate_add_apply,
        hexp]
    | succ i =>
      simp only [List.set, List.getD_cons_succ, List.foldl_cons]
      have hexp : 8 * (rest.length - i) =
          8 * ((b :: rest).length - (i + 1)) := by
        simp [List.length_cons]
      rw [ih i e (crcByte s b) (by simpa using h), hexp]

/-- getD of a take at an index inside the taken prefix. -/
theorem getD_take_of_lt {α : Type} (l : List α) (j n : Nat) (d : α)
    (h : j < n) : (l.take n).getD j d = l.getD j d := by
  simp [List.getD_eq_getElem?_getD, List.getElem?_take, h]

/-- getD at an index other than the one set. -/
theorem getD_set_ne {α : Type} (l : List α) (i j : Nat) (v d : α)
    (h : i ≠ j) : (l.set i v).getD j d = l.getD j d := by
  simp [List.getD_eq_getElem?_getD, List.getElem?_set_ne h]

/-- Flipping bit k of byte j changes the CRC-16 of the list: the data-
independent disturbance of the final state is a nonzero 16-bit value. -/
theorem calculate_flip (data : List Nat) (j k : Nat) (hj : j < data.length)
    (hk : k < 8) :
    ModbusCrc16Calculator.calculate (data.set j (data.getD j 0 ^^^ 2 ^ k)) ≠
      ModbusCrc16Calculator.calculate data := by
  unfold ModbusCrc16Calculator.calculate
  rw [foldl_crcByte_flip data j (2 ^ k) 65535 hj]
  intro hEq
  have hpow0 : (2 : Nat) ^ k ≠ 0 := by positivity
  have hpowlt : (2 : Nat) ^ k < 65536 := by
    have h7 : (2 : Nat) ^ k ≤ 2 ^ 7 :=
      Nat.pow_le_pow_right (by norm_num) (by omega)
    omega
  have hd := iterate_crcBit_nonzero (8 * (data.length - j)) (2 ^ k) hpow0
    hpowlt
  apply hd.1
  calc crcBit^[8 * (data.length - j)] (2 ^ k)
      = List.foldl crcByte 65535 data ^^^
          (List.foldl crcByte 65535 data ^^^
            crcBit^[8 * (data.length - j)] (2 ^ k)) :=
        (Nat.xor_cancel_left _ _).symm
    _ = List.foldl crcByte 65535 data ^^^ List.foldl crcByte 65535 data := by
        rw [hEq]
    _ = 0 := Nat.xor_self _

/-- A frame accepted by ModbusCrc16.valid is rejected after flipping any
single bit of any payload byte: the payload CRC moves away from the
unchanged trailing expectation. -/
theorem valid_flip (bs : List Nat) (j k : Nat)
    (hval : ModbusCrc16.valid bs = true) (hj : j + 2 < bs.length)
    (hk : k < 8) :
    ModbusCrc16.valid (bs.set j (bs.getD j 0 ^^^ 2 ^ k)) = false := by
  unfold ModbusCrc16.valid at hval ⊢
  rw [if_neg (by omega)] at hval
  rw [List.length_set, if_neg (by omega)]
  rw [List.set_take, getD_set_ne bs j (bs.length - 1) _ 0 (by omega),
    getD_set_ne bs j (bs.length - 2) _ 0 (by omega)]
  rw [← getD_take_of_lt bs j (bs.length - 2) 0 (by omega)]
  simp only [beq_iff_eq] at hval
  simp only [beq_eq_false_iff_ne, ne_eq]
  rw [← hval]
  exact calculate_flip (bs.take (bs.length - 2)) j k
    (by simp [List.length_take]; omega) hk

/-- C3: the CRC-16 of the payload 01 03 04 00 0A 00 01 is 0xF11B, which
differs from 0xF4DD, the little-endian value of the trailing two bytes
DD F4 of the captured frame in the modbus_rtu.py module docstring (line
19), so ModbusCrc16.valid rejects the repository's only captured frame
even though the docstring presents it as parsing successfully; and for
every frame valid accepts, flipping any single bit of any payload byte
yields a frame valid rejects. -/
theorem modbusCrc16_captured_frame_and_flip :
    (ModbusCrc16Calculator.calculate [0x01, 0x03, 0x04, 0x00, 0x0A, 0x00,
        0x01] = 0xF11B ∧
      ((modbusDocFrame.getD 8 0) <<< 8) ||| modbusDocFrame.getD 7 0 =
        0xF4DD ∧
      ModbusCrc16.valid modbusDocFrame = false) ∧
    (∀ (bs : List Nat) (j k : Nat), ModbusCrc16.valid bs = true →
      j + 2 < bs.length → k < 8 →
      ModbusCrc16.valid (bs.set j (bs.getD j 0 ^^^ 2 ^ k)) = false) := by
  constructor
  · exact ⟨by decide, by decide, by decide⟩
  · exact fun bs j k hval hj hk => valid_flip bs j k hval hj hk

/-- C3 (witness): flipping the lowest bit of the first payload byte of the
CRC-corrected captured frame makes valid reject it. -/
theorem modbusCrc16_captured_frame_and_flip_witness :
    ModbusCrc16.valid
        (modbusGoodFrame.set 0 (modbusGoodFrame.getD 0 0 ^^^ 2 ^ 0)) =
      false :=
  modbusCrc16_captured_frame_and_flip.2 modbusGoodFrame 0 0 (by decide)
    (by decide) (by decide)

/-- One interleaving step preserves the loop's iteration-count invariant:
inside an inner iteration exactly one begun iteration is unfinished, and
at any other control point all begun iterations have finished. -/
theorem loopStep_inv (s : LoopState) (e : LoopEvent)
    (h1 : s.phase = .inIteration → s.started = s.finished + 1)
    (h2 : s.phase ≠ .inIteration → s.started = s.finished) :
    ((loopStep s e).phase = .inIteration →
      (loopStep s e).started = (loopStep s e).finished + 1) ∧
    ((loopStep s e).phase ≠ .inIteration →
      (loopStep s e).started = (loopStep s e).finished) := by
  cases e <;> simp only [loopStep] <;>
    (repeat' split) <;> simp_all

/-- The iteration-count invariant holds along every event trace. -/
theorem runTrace_inv : ∀ (evs : List LoopEvent) (s : LoopState),
    (s.phase = .inIteration → s.started = s.finished + 1) →
    (s.phase ≠ .inIteration → s.started = s.finished) →
    (((runTrace s evs).phase = .inIteration →
       (runTrace s evs).started = (runTrace s evs).finished + 1) ∧
     ((runTrace s evs).phase ≠ .inIteration →
       (runTrace s evs).started = (runTrace s evs).finished)) := by
  intro evs
  induction evs with
  | nil => intro s h1 h2; exact ⟨h1, h2⟩
  | cons e rest ih =>
    intro s h1 h2
    have hstep := loopStep_inv s e h1 h2
    simpa [runTrace, List.foldl_cons] using
      ih (loopStep s e) hstep.1 hstep.2

/-- Once the running flag is false no step can set it back or begin a new
iteration: the `while` test only starts iterations while the flag holds
and no event assigns the flag true. -/
theorem loopStep_stopped (s : LoopState) (e : LoopEvent)
    (h : s.running = false) :
    (loopStep s e).running = false ∧ (loopStep s e).started = s.started := by
  cases e <;> simp only [loopStep] <;> (repeat' split) <;> simp_all

/-- After the flag is false, entire event traces leave the begun-iteration
count unchanged. -/
theorem runTrace_stopped : ∀ (more : List LoopEvent) (s : LoopState),
    s.running = false →
    (runTrace s more).running = false ∧
      (runTrace s more).started = s.started := by
  intro more
  induction more with
  | nil => intro s h; exact ⟨h, rfl⟩
  | cons e rest ih =>
    intro s h
    have hstep := loopStep_stopped s e h
    have htail := ih (loopStep s e) hstep.1
    simp only [runTrace, List.foldl_cons] at htail ⊢
    exact ⟨htail.1, htail.2.trans hstep.2⟩

/-- C9: stop() only sets the running flag to false and changes nothing
else of the loop state; in every interleaving of a LoopedPipeline.start
run with stop events, if the loop has exited then every inner iteration
that began has completed (no in-flight iteration is interrupted); and
once stop has taken effect (the flag reads false), no further inner
iteration ever begins, whatever events follow. -/
theorem loopedPipeline_stop_no_preemption :
    (∀ s : LoopState, loopStep s .stop = { s with running := false }) ∧
    (∀ evs : List LoopEvent, (runTrace loopInit evs).phase = .done →
      (runTrace loopInit evs).finished = (runTrace loopInit evs).started) ∧
    (∀ evs more : List LoopEvent, (runTrace loopInit evs).running = false →
      (runTrace loopInit (evs ++ more)).started =
        (runTrace loopInit evs).started) := by
  refine ⟨fun s => rfl, ?_, ?_⟩
  · intro evs hdone
    have h := runTrace_inv evs loopInit (by simp [loopInit])
      (by simp [loopInit])
    exact (h.2 (by simp [hdone])).symm
  · intro evs more hstop
    have happ : runTrace loopInit (evs ++ more) =
        runTrace (runTrace loopInit evs) more := by
      simp [runTrace, List.foldl_append]
    rw [happ]
    exact (runTrace_stopped more (runTrace loopInit evs) hstop).2

/-- C9 (witness): after a stop event takes effect, a subsequent while-test
begins no new iteration. -/
theorem loopedPipeline_stop_no_preemption_witness :
    (runTrace loopInit ([LoopEvent.stop] ++ [LoopEvent.check])).started =
      (runTrace loopInit [LoopEvent.stop]).started :=
  loopedPipeline_stop_no_preemption.2.2 [LoopEvent.stop] [LoopEvent.check]
    (by decide)
